import Mathlib

/-!
Shallow embedding of the P2P file-sharing system (directory/registry
service, gRPC transfer protocol, peer bootstrap, health aggregation and
connection monitoring) together with proofs about the embedded operations.

Conventions used throughout:
* JavaScript `Map` objects are rendered as association lists kept in
  insertion order with at most one entry per key (`mapGet`, `mapSet`,
  `mapDelete`).
* ISO timestamp strings are rendered as an abstract clock value of type
  `Nat` passed explicitly to each operation.
* File bytes are rendered as `List Nat`; the SHA-256 digest is kept
  abstract as a parameter `hash : List Nat -> String`, since no modelled
  control flow depends on the internals of the digest, only on equality
  of digest strings.
* Asynchronous filesystem persistence (`saveRegistry`) either succeeds or
  throws; this is rendered as an `Option String` argument carrying the
  thrown error message (`none` means the write succeeded).
-/

namespace P2P

/-- Lookup in a JavaScript `Map` rendered as an association list
(first matching key wins, mirroring key uniqueness of `Map`). -/
def mapGet {β : Type} : List (String × β) → String → Option β
  | [], _ => none
  | (k', v) :: rest, k => if k' = k then some v else mapGet rest k

/-- The `Map.set` operation: replace the value in place when the key is
present, otherwise append the new entry at the end (insertion order). -/
def mapSet {β : Type} : List (String × β) → String → β → List (String × β)
  | [], k, v => [(k, v)]
  | (k', v') :: rest, k, v =>
    if k' = k then (k, v) :: rest else (k', v') :: mapSet rest k v

/-- The `Map.delete` operation: drop the entry carrying the key. -/
def mapDelete {β : Type} (m : List (String × β)) (k : String) : List (String × β) :=
  m.filter (fun e => e.1 ≠ k)

/-! ## Registry and file index (src/microservices/directory-service/registry.service.js) -/

/-- Peer record stored by `RegistryService.registerPeer`. -/
structure PeerInfo where
  peerId : String
  ip : String
  restPort : Nat
  files : List String
  status : String
  registeredAt : Nat
  lastSeen : Nat
deriving Repr, DecidableEq

/-- Entry of the reverse file index: the object pushed by
`RegistryService.updateFileIndex`. -/
structure PeerRef where
  peerId : String
  ip : String
  restPort : Nat
deriving Repr, DecidableEq

/-- In-memory state of `RegistryService`: the `peers` map and the reverse
`fileIndex` map. -/
@[ext]
structure Registry where
  peers : List (String × PeerInfo)
  fileIndex : List (String × List PeerRef)
deriving Repr, DecidableEq

/-- The empty registry (fresh service instance with no snapshot on disk). -/
def emptyRegistry : Registry := { peers := [], fileIndex := [] }

/-- One step of the removal loop of `updateFileIndex` (and of the cleanup
loop of `unregisterPeer`): filter the peer out of the entry for one
filename, deleting the entry when it becomes empty. -/
def removeFromIndex (peerId : String) (idx : List (String × List PeerRef))
    (oldFile : String) : List (String × List PeerRef) :=
  let filePeers := (mapGet idx oldFile).getD []
  let updatedPeers := filePeers.filter (fun p => p.peerId ≠ peerId)
  if updatedPeers.length = 0 then mapDelete idx oldFile
  else mapSet idx oldFile updatedPeers

/-- One step of the addition loop of `updateFileIndex`: push a reference
to the peer for one filename unless one is already present. -/
def addToIndex (peerId ip : String) (restPort : Nat)
    (idx : List (String × List PeerRef)) (filename : String) :
    List (String × List PeerRef) :=
  let filePeers := (mapGet idx filename).getD []
  match filePeers.find? (fun p => p.peerId = peerId) with
  | some _ => idx
  | none => mapSet idx filename (filePeers ++ [⟨peerId, ip, restPort⟩])

/-- `RegistryService.updateFileIndex(peerId, files)`: reads the peer
record currently stored in `peers` (which, when invoked from
`registerPeer`, is already the freshly stored record), removes the
filenames of that record from the index, adds the supplied filenames,
and rewrites the record with the new file list and a fresh `lastSeen`. -/
def updateFileIndex (reg : Registry) (peerId : String) (files : List String)
    (now : Nat) : Registry :=
  match mapGet reg.peers peerId with
  | none => reg
  | some peer =>
    let idx1 := peer.files.foldl (removeFromIndex peerId) reg.fileIndex
    let idx2 := files.foldl (addToIndex peerId peer.ip peer.restPort) idx1
    { peers := mapSet reg.peers peerId { peer with files := files, lastSeen := now },
      fileIndex := idx2 }

/-- Request body of `registerPeer`. Each field is optional; JavaScript
truthiness makes an absent field, an empty string and the number zero all
count as missing. -/
structure PeerData where
  peerId : Option String
  ip : Option String
  restPort : Option Nat
  files : Option (List String)
deriving Repr, DecidableEq

/-- Truthiness of an optional string field (absent or empty is falsy). -/
def truthyStr : Option String → Bool
  | none => false
  | some s => !s.isEmpty

/-- Truthiness of an optional numeric field (absent or zero is falsy). -/
def truthyNat : Option Nat → Bool
  | none => false
  | some n => n != 0

/-- The guard of `registerPeer`: the negation of
`!peerId || !ip || !restPort`. -/
def requiredPresent (pd : PeerData) : Bool :=
  truthyStr pd.peerId && truthyStr pd.ip && truthyNat pd.restPort

/-- Result object returned by `registerPeer`. -/
structure RegisterResult where
  success : Bool
  message : String
  peer : Option PeerInfo
deriving Repr, DecidableEq

/-- `RegistryService.registerPeer(peerData)`: validate the required
fields, store the record, run `updateFileIndex`, persist the snapshot
(`saveError = some msg` renders a failing `saveRegistry`, whose thrown
error is caught and turned into a failure result without rolling the
in-memory maps back). -/
def registerPeer (reg : Registry) (pd : PeerData) (now : Nat)
    (saveError : Option String) : RegisterResult × Registry :=
  if !(requiredPresent pd) then
    ({ success := false, message := "Missing required fields: peerId, ip, restPort",
       peer := none }, reg)
  else
    let peerId := pd.peerId.getD ""
    let ip := pd.ip.getD ""
    let restPort := pd.restPort.getD 0
    let files := pd.files.getD []
    let peerInfo : PeerInfo :=
      { peerId, ip, restPort, files, status := "online",
        registeredAt := now, lastSeen := now }
    let reg1 : Registry := { reg with peers := mapSet reg.peers peerId peerInfo }
    let reg2 := updateFileIndex reg1 peerId files now
    match saveError with
    | none =>
      ({ success := true, message := "Peer registered successfully",
         peer := some { peerInfo with lastSeen := now } }, reg2)
    | some msg => ({ success := false, message := msg, peer := none }, reg2)

/-- Result object returned by `unregisterPeer`. -/
structure UnregisterResult where
  success : Bool
  message : String
deriving Repr, DecidableEq

/-- `RegistryService.unregisterPeer(peerId)`: fail when the peer is
unknown, otherwise drop its file-index entries and its record, then
persist (a failing snapshot write is caught and reported, the in-memory
mutation stays). -/
def unregisterPeer (reg : Registry) (peerId : String)
    (saveError : Option String) : UnregisterResult × Registry :=
  match mapGet reg.peers peerId with
  | none => ({ success := false, message := "Peer " ++ peerId ++ " not found" }, reg)
  | some peer =>
    let idx := peer.files.foldl (removeFromIndex peerId) reg.fileIndex
    let reg1 : Registry := { peers := mapDelete reg.peers peerId, fileIndex := idx }
    match saveError with
    | none => ({ success := true, message := "Peer unregistered successfully" }, reg1)
    | some msg => ({ success := false, message := msg }, reg1)

/-! ## Alternate gRPC directory service (DirectoryGrpcService) -/

/-- File descriptor carried inside a gRPC registration request. -/
structure GrpcFileInfo where
  filename : String
  size : Nat
  checksum : String
deriving Repr, DecidableEq

/-- Peer record stored by `DirectoryGrpcService.registerPeer`. -/
structure GrpcPeerData where
  peer_id : String
  address : String
  port : Nat
  files : List GrpcFileInfo
  last_seen : Nat
  status : String
deriving Repr, DecidableEq

/-- In-memory state of `DirectoryGrpcService`: `peers` maps a peer id to
its record and `files` maps a filename to the list of peer ids. -/
structure GrpcDirectory where
  peers : List (String × GrpcPeerData)
  files : List (String × List String)
deriving Repr, DecidableEq

/-- The empty gRPC directory. -/
def emptyGrpcDirectory : GrpcDirectory := { peers := [], files := [] }

/-- `DirectoryGrpcService.registerPeer(call)`: store the record and push
the peer id onto the index entry of every advertised filename. The push
is unconditional, with no duplicate check. -/
def grpcRegisterPeer (d : GrpcDirectory) (peer_id address : String) (port : Nat)
    (files : List GrpcFileInfo) (now : Nat) : GrpcDirectory :=
  let peerData : GrpcPeerData :=
    { peer_id, address, port, files, last_seen := now, status := "ONLINE" }
  let peers := mapSet d.peers peer_id peerData
  let fIndex := files.foldl (fun idx file =>
      let cur := (mapGet idx file.filename).getD []
      mapSet idx file.filename (cur ++ [peer_id])) d.files
  { peers, files := fIndex }

/-! ## Transfer protocol (PeerGrpcService.transferFile and receiveFile) -/

/-- One message of the `transferFile` server stream. -/
structure TransferChunk where
  chunk : List Nat
  offset : Nat
  is_last : Bool
  checksum : String
deriving Repr, DecidableEq

/-- The read/emit loop of `PeerGrpcService.transferFile`, with explicit
fuel standing for the iterations of the JavaScript `while` loop (the
loop advances by `min chunkSize remaining` bytes per iteration; with the
fuel chosen in `transferFile` below, fuel never runs out for a positive
chunk size). Each iteration reads the next slice of the file and emits it
with `is_last` and, on the last chunk only, the whole-file checksum. -/
def transferLoop (hash : List Nat → String) (content : List Nat)
    (chunkSize : Nat) : Nat → Nat → List TransferChunk
  | 0, _ => []
  | fuel + 1, currentOffset =>
    if currentOffset < content.length then
      let remainingBytes := content.length - currentOffset
      let bytesToRead := min chunkSize remainingBytes
      let bytes := (content.drop currentOffset).take bytesToRead
      let isLast := decide (content.length ≤ currentOffset + bytesToRead)
      let cks := if isLast then hash content else ""
      { chunk := bytes, offset := currentOffset, is_last := isLast, checksum := cks } ::
        transferLoop hash content chunkSize fuel (currentOffset + bytesToRead)
    else []

/-- `PeerGrpcService.transferFile(call)` for a file whose bytes are
`content` and that exists on the sender: the list of chunk messages
written to the stream before `call.end()`. -/
def transferFile (hash : List Nat → String) (content : List Nat)
    (offset chunkSize : Nat) : List TransferChunk :=
  transferLoop hash content chunkSize (content.length + 1) offset

/-- The `file_info` header message of a `receiveFile` client stream. In
the loaded proto an unset checksum surfaces as the empty string, which is
falsy in the receiver's `fileInfo?.checksum` test. -/
structure RFileInfo where
  filename : String
  total_size : Nat
  checksum : String
deriving Repr, DecidableEq

/-- One message of the `receiveFile` client stream. -/
inductive ReceiveMsg
  | info (fi : RFileInfo)
  | chunk (bytes : List Nat)
deriving Repr, DecidableEq

/-- Receiver-side stream state: the recorded header, the running
`receivedBytes` counter and the bytes of the destination file. -/
structure ReceiveState where
  fileInfo : Option RFileInfo
  receivedBytes : Nat
  fileContent : List Nat
deriving Repr, DecidableEq

/-- A positional file write: splice `bytes` into `content` at `off`,
zero-filling any gap (the semantics of `fileHandle.write` at an offset). -/
def writeAt (content : List Nat) (off : Nat) (bytes : List Nat) : List Nat :=
  content.take off ++ List.replicate (off - content.length) 0 ++ bytes ++
    content.drop (off + bytes.length)

/-- The `data` handler of `receiveFile`: a `file_info` message records the
header and creates (truncates) the destination file; a chunk message is
written at offset `receivedBytes` provided a file handle exists, and the
counter advances by the chunk length. -/
def receiveData (st : ReceiveState) : ReceiveMsg → ReceiveState
  | .info fi => { st with fileInfo := some fi, fileContent := [] }
  | .chunk bytes =>
    match st.fileInfo with
    | none => st
    | some _ =>
      { st with fileContent := writeAt st.fileContent st.receivedBytes bytes,
                receivedBytes := st.receivedBytes + bytes.length }

/-- Fold the `data` handler over the messages of the stream. -/
def processData (msgs : List ReceiveMsg) : ReceiveState :=
  msgs.foldl receiveData { fileInfo := none, receivedBytes := 0, fileContent := [] }

/-- Outcome of the `receiveFile` call: either a success response carrying
`saved_path` or a terminating gRPC `DATA_LOSS` error. -/
inductive ReceiveResult
  | success (saved_path : String)
  | dataLoss (details : String)
deriving Repr, DecidableEq

/-- The `end` handler of `receiveFile`. The boolean of the pair records
whether a file remains at the destination path once the handler finishes
(`fs.unlink` on a mismatch makes it false; when no `file_info` message
ever arrived, no file was created in the first place). -/
def receiveEnd (hash : List Nat → String) (st : ReceiveState) :
    ReceiveResult × Bool :=
  match st.fileInfo with
  | some fi =>
    if st.receivedBytes ≠ fi.total_size then
      (.dataLoss "File size mismatch", false)
    else if !fi.checksum.isEmpty then
      if hash st.fileContent ≠ fi.checksum then
        (.dataLoss "Checksum mismatch", false)
      else (.success ("shared-files/" ++ fi.filename), true)
    else (.success ("shared-files/" ++ fi.filename), true)
  | none => (.success "", false)

/-- A whole `receiveFile` call on a stream that completes normally:
process every message, then run the `end` handler. -/
def receiveFileStream (hash : List Nat → String) (msgs : List ReceiveMsg) :
    ReceiveResult × Bool :=
  receiveEnd hash (processData msgs)

/-! ## Peer lifecycle (BootstrapService) -/

/-- The retry-relevant fields of `BootstrapService` as initialized by its
constructor (`maxRetries = 5`, `retryDelay = 5000`). -/
structure BootstrapState where
  isRegistered : Bool
  retryCount : Nat
  maxRetries : Nat
  retryDelay : Nat
deriving Repr, DecidableEq

/-- `BootstrapService` constructor state. -/
def initialBootstrapState : BootstrapState :=
  { isRegistered := false, retryCount := 0, maxRetries := 5, retryDelay := 5000 }

/-- Outcome of one `retryConnection` call. `attempted delay connected`
means the computed backoff delay was applied and `connectToNetwork` was
then invoked with the given outcome; `terminal` means the call returned
the max-retries failure without invoking `connectToNetwork`. -/
inductive RetryOutcome
  | terminal
  | attempted (delay : Nat) (connected : Bool)
deriving Repr, DecidableEq

/-- `BootstrapService.connectToNetwork()`: the network interaction is
abstracted into the boolean `ok` (directory reachable and registration
accepted); on success the service records the registration and resets
the retry counter, on failure the state is returned unchanged. -/
def connectToNetwork (s : BootstrapState) (ok : Bool) : BootstrapState × Bool :=
  if ok then ({ s with isRegistered := true, retryCount := 0 }, true)
  else (s, false)

/-- `BootstrapService.retryConnection()`: give up once `retryCount` has
reached `maxRetries`; otherwise bump the counter, wait
`retryDelay * 2 ^ (retryCount - 1)` milliseconds and call
`connectToNetwork`. -/
def retryConnection (s : BootstrapState) (ok : Bool) :
    BootstrapState × RetryOutcome :=
  if s.maxRetries ≤ s.retryCount then (s, .terminal)
  else
    let rc := s.retryCount + 1
    let delay := s.retryDelay * 2 ^ (rc - 1)
    let s1 := { s with retryCount := rc }
    let (s2, connected) := connectToNetwork s1 ok
    (s2, .attempted delay connected)

/-- Iterate `retryConnection` while every `connectToNetwork` attempt
fails, collecting the outcomes in order. -/
def retryRun (s : BootstrapState) : Nat → List RetryOutcome × BootstrapState
  | 0 => ([], s)
  | n + 1 =>
    let (s1, o) := retryConnection s false
    let (os, s2) := retryRun s1 n
    (o :: os, s2)

/-! ## Health aggregation (HealthCheckService.performHealthCheck) -/

/-- Status strings a settled individual check can report. -/
inductive CheckStatus
  | healthy
  | online
  | offline
  | unhealthy
  | errored
  | notConfigured
deriving Repr, DecidableEq, Fintype

/-- The failure predicate of the tally in `performHealthCheck`: a check
counts as failed when its status is neither the string healthy nor the
string online. -/
def statusFails (s : CheckStatus) : Bool :=
  !(s = CheckStatus.healthy) && !(s = CheckStatus.online)

/-- The classification step of `performHealthCheck` over the list of
settled check results. -/
def overallHealth (checks : List CheckStatus) : String :=
  let failedChecks := checks.filter statusFails
  if failedChecks.length = 0 then "healthy"
  else if failedChecks.length < checks.length then "degraded"
  else "unhealthy"

/-- One tick of `performHealthCheck`: the four checks (directory server,
primary friend, backup friend, self) are awaited and classified. -/
def performHealthCheck (dir friendP friendB selfCheck : CheckStatus) : String :=
  overallHealth [dir, friendP, friendB, selfCheck]

/-- `HealthCheckService.checkFriendBackup`: a missing backup-neighbor
configuration yields the status not-configured; otherwise the ping
outcome decides between online and offline. -/
def checkFriendBackup (configured : Bool) (pingSuccess : Bool) : CheckStatus :=
  if !configured then .notConfigured
  else if pingSuccess then .online else .offline

/-! ## Connection monitor (ConnectionManager) -/

/-- The gRPC channel connectivity states observed by the monitor. -/
inductive ConnectivityState
  | idle
  | connecting
  | ready
  | transientFailure
  | shutdown
deriving Repr, DecidableEq

/-- Per-channel record kept in `connectionStates` (the `lastCheck`
timestamp is elided; no decision depends on it). -/
structure ConnStateInfo where
  state : ConnectivityState
  failures : Nat
deriving Repr, DecidableEq

/-- The `checkState` closure of `monitorConnection`: on an observed state
change record the new state, reset `failures` on a transition into ready,
increment it on a transition into transient failure. -/
def checkState (si : ConnStateInfo) (observed : ConnectivityState) : ConnStateInfo :=
  if si.state ≠ observed then
    { state := observed,
      failures :=
        if observed = ConnectivityState.ready then 0
        else if observed = ConnectivityState.transientFailure then si.failures + 1
        else si.failures }
  else si

/-- The monitor applied to a sequence of observed connectivity states. -/
def runMonitor (si : ConnStateInfo) (observations : List ConnectivityState) :
    ConnStateInfo :=
  observations.foldl checkState si

/-- The reconnection decision of `ConnectionManager.performHealthChecks`
for one channel: a forced reconnect is requested exactly when the
channel's failure counter exceeds 3. -/
def requestsReconnect (si : ConnStateInfo) : Bool :=
  decide (3 < si.failures)

/-- Specification-level count of transitions into transient failure since
the latest transition into ready, tracking the previous state so that
repeated observations of an unchanged state are not transitions. -/
def tfSinceLastReady (s : ConnectivityState) (acc : Nat) :
    List ConnectivityState → Nat
  | [] => acc
  | o :: rest =>
    if s ≠ o then
      if o = ConnectivityState.ready then tfSinceLastReady o 0 rest
      else if o = ConnectivityState.transientFailure then
        tfSinceLastReady o (acc + 1) rest
      else tfSinceLastReady o acc rest
    else tfSinceLastReady s acc rest

/-! ## Download service (DownloadService.downloadFile) -/

/-- Contiguous-sublist test on character lists. -/
def listInfix (sub : List Char) : List Char → Bool
  | [] => sub.isEmpty
  | c :: rest => sub.isPrefixOf (c :: rest) || listInfix sub rest

/-- Substring test rendering the JavaScript `String.includes`. -/
def containsSub (s sub : String) : Bool :=
  listInfix sub.data s.data

/-- The path-traversal guard of `downloadFile`. -/
def hasPathTraversal (filename : String) : Bool :=
  containsSub filename ".." || filename.contains '/' || filename.contains '\\'

/-- An entry of the modelled filesystem under the shared directory. -/
inductive FSEntry
  | file (content : List Nat)
  | directory
deriving Repr, DecidableEq

/-- Result object of `downloadFile` (download options are left at their
defaults; the metadata, range and caching decorations attached after the
content read do not affect success or file access and are elided). -/
structure DownloadResult where
  success : Bool
  message : String
  filename : String
  content : Option (List Nat)
deriving Repr, DecidableEq

/-- `DownloadService.downloadFile(filename)` over a modelled filesystem.
The second component lists the filesystem paths the call touches
(`fs.access`, `fs.stat` and the content read all target the single joined
path); the two validation guards return before any filesystem access. -/
def downloadFile (fsys : List (String × FSEntry)) (sharedDirectory filename : String) :
    DownloadResult × List String :=
  if filename.isEmpty || filename.trim.isEmpty then
    ({ success := false, message := "Filename is required", filename,
       content := none }, [])
  else if hasPathTraversal filename then
    ({ success := false, message := "Invalid filename: path traversal not allowed",
       filename, content := none }, [])
  else
    let filePath := sharedDirectory ++ "/" ++ filename
    match mapGet fsys filePath with
    | none =>
      ({ success := false, message := "File " ++ filename ++ " not found",
         filename, content := none }, [filePath])
    | some FSEntry.directory =>
      ({ success := false, message := filename ++ " is not a file",
         filename, content := none }, [filePath])
    | some (FSEntry.file c) =>
      ({ success := true, message := "", filename, content := some c }, [filePath])

/-! ## Pointwise views of the file-index loops -/

/-- The record a validated `registerPeer` call stores for the peer. -/
def storedInfo (pd : PeerData) (now : Nat) : PeerInfo :=
  { peerId := pd.peerId.getD "", ip := pd.ip.getD "",
    restPort := pd.restPort.getD 0, files := pd.files.getD [],
    status := "online", registeredAt := now, lastSeen := now }

/-- Pointwise effect of `removeFromIndex` on the entry of the touched
filename. -/
def removeResult (peerId : String) (o : Option (List PeerRef)) :
    Option (List PeerRef) :=
  let updatedPeers := (o.getD []).filter (fun p => p.peerId ≠ peerId)
  if updatedPeers.length = 0 then none else some updatedPeers

/-- Pointwise effect of `addToIndex` on the entry of the touched
filename. -/
def addResult (peerId ip : String) (restPort : Nat) (o : Option (List PeerRef)) :
    Option (List PeerRef) :=
  let filePeers := o.getD []
  match filePeers.find? (fun p => p.peerId = peerId) with
  | some _ => o
  | none => some (filePeers ++ [⟨peerId, ip, restPort⟩])

/-! ## Concrete fixtures used by witnesses and counterexamples -/

/-- A concrete stand-in digest used only to instantiate the abstract hash
parameter in closed witness statements. -/
def constHash : List Nat → String := fun _ => "h"

/-- Registration request for peer p1 advertising one file a.txt. -/
def pdA : PeerData :=
  { peerId := some "p1", ip := some "10.0.0.1", restPort := some 8080,
    files := some ["a.txt"] }

/-- Re-registration request for peer p1 now advertising only b.txt. -/
def pdB : PeerData :=
  { peerId := some "p1", ip := some "10.0.0.1", restPort := some 8080,
    files := some ["b.txt"] }

/-- Registration request whose files field is absent. -/
def pdNoFiles : PeerData :=
  { peerId := some "p1", ip := some "10.0.0.1", restPort := some 8080,
    files := none }

/-- A registry holding a single peer q1 with one file, used to discharge
hypotheses of witness statements. -/
def regQ : Registry :=
  { peers := [("q1", { peerId := "q1", ip := "10.0.0.9", restPort := 9090,
                       files := ["q.txt"], status := "online",
                       registeredAt := 0, lastSeen := 0 })],
    fileIndex := [("q.txt", [{ peerId := "q1", ip := "10.0.0.9", restPort := 9090 }])] }

/-! ## Helper lemmas about the map operations -/

theorem mapGet_mapSet_self {β : Type} (m : List (String × β)) (k : String) (v : β) :
    mapGet (mapSet m k v) k = some v := by
  induction m with
  | nil => simp [mapSet, mapGet]
  | cons e rest ih =>
    by_cases h : e.1 = k
    · simp [mapSet, mapGet, h]
    · simp [mapSet, mapGet, h, ih]

theorem mapGet_mapSet_ne {β : Type} (m : List (String × β)) (k k' : String) (v : β)
    (h : k ≠ k') : mapGet (mapSet m k v) k' = mapGet m k' := by
  have h' : ¬(k = k') := h
  induction m with
  | nil => simp [mapSet, mapGet, h']
  | cons e rest ih =>
    obtain ⟨a, b⟩ := e
    by_cases ha : a = k
    · subst ha
      simp [mapSet, mapGet, h']
    · have h'' : ¬(k' = k) := fun hh => h hh.symm
      by_cases ha' : a = k' <;> simp [mapSet, mapGet, ha, ha', ih, h'']

theorem mapGet_mapDelete_self {β : Type} (m : List (String × β)) (k : String) :
    mapGet (mapDelete m k) k = none := by
  induction m with
  | nil => simp [mapDelete, mapGet]
  | cons e rest ih =>
    obtain ⟨a, b⟩ := e
    by_cases ha : a = k
    · simpa [mapDelete, List.filter_cons, ha] using ih
    · simpa [mapDelete, List.filter_cons, ha, mapGet] using ih

theorem mapGet_mapDelete_ne {β : Type} (m : List (String × β)) (k k' : String)
    (h : k ≠ k') : mapGet (mapDelete m k) k' = mapGet m k' := by
  induction m with
  | nil => simp [mapDelete, mapGet]
  | cons e rest ih =>
    obtain ⟨a, b⟩ := e
    have h' : ¬(k = k') := h
    have h'' : ¬(k' = k) := fun hh => h hh.symm
    by_cases ha : a = k
    · have ha' : ¬(a = k') := by rw [ha]; exact h
      simpa [mapDelete, List.filter_cons, ha, mapGet, ha', h', h''] using ih
    · by_cases ha' : a = k'
      · simp [mapDelete, List.filter_cons, ha, mapGet, ha', h', h'']
      · simpa [mapDelete, List.filter_cons, ha, mapGet, ha', h', h''] using ih

theorem filter_self_idem {α : Type} (p : α → Bool) (l : List α) :
    (l.filter p).filter p = l.filter p := by
  induction l with
  | nil => rfl
  | cons a t ih => by_cases h : p a <;> simp [List.filter_cons, h, ih]

theorem find?_append_of_none {α : Type} (p : α → Bool) (l : List α) (x : α)
    (hl : l.find? p = none) (hx : p x = true) : (l ++ [x]).find? p = some x := by
  induction l with
  | nil => simp [hx]
  | cons a t ih =>
    by_cases hpa : p a
    · rw [List.find?_cons_of_pos _ hpa] at hl
      cases hl
    · rw [List.find?_cons_of_neg _ hpa] at hl
      rw [List.cons_append, List.find?_cons_of_neg _ hpa]
      exact ih hl

theorem find?_filter_ne (pid : String) (l : List PeerRef) :
    (l.filter (fun p => p.peerId ≠ pid)).find? (fun p => p.peerId = pid) = none := by
  rw [List.find?_eq_none]
  intro x hx
  have := (List.mem_filter.mp hx).2
  simpa using this

theorem removeResult_eq (pid : String) (o : Option (List PeerRef)) :
    removeResult pid o =
      if ((o.getD []).filter (fun p => p.peerId ≠ pid)) = [] then none
      else some ((o.getD []).filter (fun p => p.peerId ≠ pid)) := by
  simp only [removeResult]
  by_cases hnil : ((o.getD []).filter (fun p => p.peerId ≠ pid)) = []
  · have hl : ((o.getD []).filter (fun p => p.peerId ≠ pid)).length = 0 := by
      rw [hnil]
      rfl
    rw [if_pos hl, if_pos hnil]
  · have hl : ¬((o.getD []).filter (fun p => p.peerId ≠ pid)).length = 0 :=
      fun hh => hnil (List.length_eq_zero.mp hh)
    rw [if_neg hl, if_neg hnil]

theorem removeResult_idem (pid : String) (o : Option (List PeerRef)) :
    removeResult pid (removeResult pid o) = removeResult pid o := by
  rw [removeResult_eq pid o]
  by_cases hnil : ((o.getD []).filter (fun p => p.peerId ≠ pid)) = []
  · rw [if_pos hnil]
    rfl
  · rw [if_neg hnil, removeResult_eq]
    simp only [Option.getD_some]
    rw [filter_self_idem, if_neg hnil]

theorem addResult_none (pid ip : String) (port : Nat) :
    addResult pid ip port none = some [⟨pid, ip, port⟩] := rfl

theorem addResult_some_of_find_none (pid ip : String) (port : Nat) (l : List PeerRef)
    (hl : l.find? (fun p => p.peerId = pid) = none) :
    addResult pid ip port (some l) = some (l ++ [⟨pid, ip, port⟩]) := by
  simp only [addResult, Option.getD_some]
  rw [hl]

theorem addResult_some_of_find_some (pid ip : String) (port : Nat)
    (o : Option (List PeerRef)) (x : PeerRef)
    (hl : (o.getD []).find? (fun p => p.peerId = pid) = some x) :
    addResult pid ip port o = o := by
  simp only [addResult]
  rw [hl]

theorem addResult_removeResult_eq (pid ip : String) (port : Nat)
    (o : Option (List PeerRef)) :
    addResult pid ip port (removeResult pid o) =
      some ((o.getD []).filter (fun p => p.peerId ≠ pid) ++ [⟨pid, ip, port⟩]) := by
  rw [removeResult_eq]
  by_cases hnil : ((o.getD []).filter (fun p => p.peerId ≠ pid)) = []
  · rw [if_pos hnil, hnil, List.nil_append]
    exact addResult_none pid ip port
  · rw [if_neg hnil]
    exact addResult_some_of_find_none _ _ _ _ (find?_filter_ne pid (o.getD []))

theorem remove_add_remove (pid ip : String) (port : Nat) (o : Option (List PeerRef)) :
    removeResult pid (addResult pid ip port (removeResult pid o)) =
      removeResult pid o := by
  rw [addResult_removeResult_eq, removeResult_eq, removeResult_eq]
  simp only [Option.getD_some]
  have hfilter :
      (((o.getD []).filter (fun p => p.peerId ≠ pid) ++ [⟨pid, ip, port⟩] :
        List PeerRef)).filter (fun p => p.peerId ≠ pid) =
      (o.getD []).filter (fun p => p.peerId ≠ pid) := by
    rw [List.filter_append, filter_self_idem]
    simp
  rw [hfilter]

theorem addRemove_idem (pid ip : String) (port : Nat) (o : Option (List PeerRef)) :
    addResult pid ip port (removeResult pid
        (addResult pid ip port (removeResult pid o))) =
      addResult pid ip port (removeResult pid o) := by
  rw [remove_add_remove]

theorem addResult_idem (pid ip : String) (port : Nat) (o : Option (List PeerRef)) :
    addResult pid ip port (addResult pid ip port o) = addResult pid ip port o := by
  cases hfind : (o.getD []).find? (fun p => p.peerId = pid) with
  | some x =>
    have h1 : addResult pid ip port o = o := addResult_some_of_find_some _ _ _ _ _ hfind
    rw [h1, h1]
  | none =>
    have h1 : addResult pid ip port o = some ((o.getD []) ++ [⟨pid, ip, port⟩]) := by
      cases o with
      | none => exact addResult_none pid ip port
      | some l => exact addResult_some_of_find_none _ _ _ _ hfind
    rw [h1]
    have h2 : ((o.getD []) ++ [⟨pid, ip, port⟩] : List PeerRef).find?
        (fun p => p.peerId = pid) = some ⟨pid, ip, port⟩ :=
      find?_append_of_none _ _ _ hfind (by simp)
    have h3 : ((some ((o.getD []) ++ [⟨pid, ip, port⟩]) :
        Option (List PeerRef)).getD []).find? (fun p => p.peerId = pid) =
        some ⟨pid, ip, port⟩ := by
      rw [Option.getD_some]
      exact h2
    exact addResult_some_of_find_some _ _ _ _ _ h3

theorem mapGet_removeFromIndex (pid : String) (idx : List (String × List PeerRef))
    (g f : String) :
    mapGet (removeFromIndex pid idx g) f =
      if f = g then removeResult pid (mapGet idx g) else mapGet idx f := by
  by_cases hlen : (((mapGet idx g).getD []).filter (fun p => p.peerId ≠ pid)).length = 0
  · have hidx : removeFromIndex pid idx g = mapDelete idx g := by
      simp only [removeFromIndex]
      rw [if_pos hlen]
    have hrr : removeResult pid (mapGet idx g) = none := by
      simp only [removeResult]
      rw [if_pos hlen]
    rw [hidx, hrr]
    by_cases hfg : f = g
    · subst hfg
      rw [if_pos rfl, mapGet_mapDelete_self]
    · rw [if_neg hfg, mapGet_mapDelete_ne _ _ _ (fun hh => hfg hh.symm)]
  · have hidx : removeFromIndex pid idx g =
        mapSet idx g (((mapGet idx g).getD []).filter (fun p => p.peerId ≠ pid)) := by
      simp only [removeFromIndex]
      rw [if_neg hlen]
    have hrr : removeResult pid (mapGet idx g) =
        some (((mapGet idx g).getD []).filter (fun p => p.peerId ≠ pid)) := by
      simp only [removeResult]
      rw [if_neg hlen]
    rw [hidx, hrr]
    by_cases hfg : f = g
    · subst hfg
      rw [if_pos rfl, mapGet_mapSet_self]
    · rw [if_neg hfg, mapGet_mapSet_ne _ _ _ _ (fun hh => hfg hh.symm)]

theorem mapGet_addToIndex (pid ip : String) (port : Nat)
    (idx : List (String × List PeerRef)) (g f : String) :
    mapGet (addToIndex pid ip port idx g) f =
      if f = g then addResult pid ip port (mapGet idx g) else mapGet idx f := by
  cases hfind : ((mapGet idx g).getD []).find? (fun p => p.peerId = pid) with
  | some x =>
    have hidx : addToIndex pid ip port idx g = idx := by
      simp only [addToIndex]
      rw [hfind]
    have har : addResult pid ip port (mapGet idx g) = mapGet idx g :=
      addResult_some_of_find_some _ _ _ _ _ hfind
    rw [hidx, har]
    by_cases hfg : f = g
    · rw [if_pos hfg, hfg]
    · rw [if_neg hfg]
  | none =>
    have hidx : addToIndex pid ip port idx g =
        mapSet idx g ((mapGet idx g).getD [] ++ [⟨pid, ip, port⟩]) := by
      simp only [addToIndex]
      rw [hfind]
    have har : addResult pid ip port (mapGet idx g) =
        some ((mapGet idx g).getD [] ++ [⟨pid, ip, port⟩]) := by
      cases ho : mapGet idx g with
      | none => exact addResult_none pid ip port
      | some l =>
        rw [ho] at hfind
        exact addResult_some_of_find_none _ _ _ _ (by simpa using hfind)
    rw [hidx, har]
    by_cases hfg : f = g
    · subst hfg
      rw [if_pos rfl, mapGet_mapSet_self]
    · rw [if_neg hfg, mapGet_mapSet_ne _ _ _ _ (fun hh => hfg hh.symm)]

theorem mapGet_removeFold (pid : String) (fs : List String)
    (idx : List (String × List PeerRef)) (f : String) :
    mapGet (fs.foldl (removeFromIndex pid) idx) f =
      if f ∈ fs then removeResult pid (mapGet idx f) else mapGet idx f := by
  induction fs generalizing idx with
  | nil => simp
  | cons g fs' ih =>
    rw [List.foldl_cons, ih, mapGet_removeFromIndex]
    by_cases hfg : f = g
    · subst hfg
      rw [if_pos rfl, if_pos (List.mem_cons_self f fs')]
      by_cases hmem : f ∈ fs'
      · rw [if_pos hmem, removeResult_idem]
      · rw [if_neg hmem]
    · rw [if_neg hfg]
      by_cases hmem : f ∈ fs'
      · rw [if_pos hmem, if_pos (List.mem_cons_of_mem g hmem)]
      · have hnc : ¬f ∈ g :: fs' := by
          intro hc
          rcases List.mem_cons.mp hc with h1 | h2
          · exact hfg h1
          · exact hmem h2
        rw [if_neg hmem, if_neg hnc]

theorem mapGet_addFold (pid ip : String) (port : Nat) (fs : List String)
    (idx : List (String × List PeerRef)) (f : String) :
    mapGet (fs.foldl (addToIndex pid ip port) idx) f =
      if f ∈ fs then addResult pid ip port (mapGet idx f) else mapGet idx f := by
  induction fs generalizing idx with
  | nil => simp
  | cons g fs' ih =>
    rw [List.foldl_cons, ih, mapGet_addToIndex]
    by_cases hfg : f = g
    · subst hfg
      rw [if_pos rfl, if_pos (List.mem_cons_self f fs')]
      by_cases hmem : f ∈ fs'
      · rw [if_pos hmem, addResult_idem]
      · rw [if_neg hmem]
    · rw [if_neg hfg]
      by_cases hmem : f ∈ fs'
      · rw [if_pos hmem, if_pos (List.mem_cons_of_mem g hmem)]
      · have hnc : ¬f ∈ g :: fs' := by
          intro hc
          rcases List.mem_cons.mp hc with h1 | h2
          · exact hfg h1
          · exact hmem h2
        rw [if_neg hmem, if_neg hnc]

/-! ## Characterization of a validated registerPeer call -/

theorem registerPeer_snd_peers (reg : Registry) (pd : PeerData) (now : Nat)
    (saveError : Option String) (h : requiredPresent pd = true) :
    (registerPeer reg pd now saveError).2.peers =
      mapSet (mapSet reg.peers (pd.peerId.getD "") (storedInfo pd now))
        (pd.peerId.getD "") (storedInfo pd now) := by
  cases saveError <;>
  · simp only [registerPeer, h, updateFileIndex, storedInfo, Bool.not_true]
    rw [if_neg (by simp), mapGet_mapSet_self]

theorem registerPeer_snd_fileIndex (reg : Registry) (pd : PeerData) (now : Nat)
    (saveError : Option String) (h : requiredPresent pd = true) :
    (registerPeer reg pd now saveError).2.fileIndex =
      (pd.files.getD []).foldl
        (addToIndex (pd.peerId.getD "") (pd.ip.getD "") (pd.restPort.getD 0))
        ((pd.files.getD []).foldl (removeFromIndex (pd.peerId.getD ""))
          reg.fileIndex) := by
  cases saveError <;>
  · simp only [registerPeer, h, updateFileIndex, storedInfo, Bool.not_true]
    rw [if_neg (by simp), mapGet_mapSet_self]

theorem registerPeer_fileIndex_get (reg : Registry) (pd : PeerData) (now : Nat)
    (f : String) (h : requiredPresent pd = true) :
    mapGet (registerPeer reg pd now none).2.fileIndex f =
      if f ∈ pd.files.getD [] then
        addResult (pd.peerId.getD "") (pd.ip.getD "") (pd.restPort.getD 0)
          (removeResult (pd.peerId.getD "") (mapGet reg.fileIndex f))
      else mapGet reg.fileIndex f := by
  rw [registerPeer_snd_fileIndex reg pd now none h, mapGet_addFold]
  by_cases hmem : f ∈ pd.files.getD []
  · rw [if_pos hmem, if_pos hmem, mapGet_removeFold, if_pos hmem]
  · rw [if_neg hmem, if_neg hmem, mapGet_removeFold, if_neg hmem]

theorem countP_filter_ne (pid : String) (l : List PeerRef) :
    (l.filter (fun p => p.peerId ≠ pid)).countP (fun p => p.peerId = pid) = 0 := by
  rw [List.countP_eq_zero]
  intro a ha
  have := (List.mem_filter.mp ha).2
  simpa using this

/-! ## Claim theorems for the registry service -/

/-- Claim C1 (code bug): evaluating `registerPeer` at the failing input
shows invariant I1 broken — after registering p1 with a.txt and then
re-registering p1 with b.txt only, the stored record lists only b.txt
while the file index still maps a.txt to p1. The cause is that
`registerPeer` stores the new record before `updateFileIndex` runs, so
the removal loop iterates the new file list instead of the old one and
never removes entries for dropped files. -/
theorem c1_reregistration_leaves_stale_index_entry :
    (mapGet ((registerPeer (registerPeer emptyRegistry pdA 0 none).2 pdB 1 none).2).peers
        "p1").map PeerInfo.files = some ["b.txt"] ∧
    mapGet ((registerPeer (registerPeer emptyRegistry pdA 0 none).2 pdB 1 none).2).fileIndex
        "a.txt" = some [{ peerId := "p1", ip := "10.0.0.1", restPort := 8080 }] := by
  decide

/-- Claim C4 counterexample: a registration request with `peerId`, `ip`
and `restPort` present but the `files` field absent succeeds, although
the claim demands an `InvalidRequest` failure whenever `files` is
absent. -/
theorem c4_counterexample_missing_files_accepted :
    pdNoFiles.files = none ∧
    (registerPeer emptyRegistry pdNoFiles 0 none).1.success = true ∧
    (registerPeer emptyRegistry pdNoFiles 0 none).1.peer.isSome = true := by
  decide

/-- Claim C4 (amended): `registerPeer` fails (and returns no stored
record, leaving the registry untouched) precisely when one of `peerId`,
`ip` or `restPort` is absent or falsy; a missing `files` list defaults to
empty and a `transferPort` field is never validated. -/
theorem c4_required_field_validation (reg : Registry) (pd : PeerData) (now : Nat) :
    (registerPeer reg pd now none).1.success = requiredPresent pd ∧
    (registerPeer reg pd now none).1.peer.isSome = requiredPresent pd ∧
    ((registerPeer reg pd now none).2 =
      if requiredPresent pd = true then (registerPeer reg pd now none).2 else reg) := by
  by_cases h : requiredPresent pd = true
  · refine ⟨?_, ?_, ?_⟩ <;> simp [registerPeer, h]
  · have h' : requiredPresent pd = false := by
      cases hb : requiredPresent pd
      · rfl
      · exact absurd hb h
    refine ⟨?_, ?_, ?_⟩ <;> simp [registerPeer, h']

/-- Claim C7 counterexample: in the alternate gRPC directory service,
registering peer p1 twice with the identical file list x.txt leaves two
references to p1 in the file index entry of x.txt, a duplicate peer
reference. -/
theorem c7_counterexample_grpc_duplicate_reference :
    mapGet ((grpcRegisterPeer
        (grpcRegisterPeer emptyGrpcDirectory "p1" "10.0.0.1" 9000
          [{ filename := "x.txt", size := 4, checksum := "" }] 0)
        "p1" "10.0.0.1" 9000
        [{ filename := "x.txt", size := 4, checksum := "" }] 1).files) "x.txt" =
      some ["p1", "p1"] := by
  decide

/-- Claim C7 (amended): for `RegistryService.registerPeer` the claim
holds — a second registration with the identical request leaves the
peers map and the file index pointwise unchanged, and after the first
call every registered filename carries exactly one reference to the peer
while entries of other filenames keep their previous reference count.
The claim fails for `DirectoryGrpcService.registerPeer`, which appends
the peer id without a duplicate check. -/
theorem c7_registry_registerPeer_idempotent (reg : Registry) (pd : PeerData)
    (now : Nat) (h : requiredPresent pd = true) :
    (∀ f, mapGet (registerPeer (registerPeer reg pd now none).2 pd now none).2.fileIndex f =
        mapGet (registerPeer reg pd now none).2.fileIndex f) ∧
    (∀ f, mapGet (registerPeer (registerPeer reg pd now none).2 pd now none).2.peers f =
        mapGet (registerPeer reg pd now none).2.peers f) ∧
    (∀ f, ((mapGet (registerPeer reg pd now none).2.fileIndex f).getD []).countP
        (fun p => p.peerId = pd.peerId.getD "") =
      if f ∈ pd.files.getD [] then 1
      else ((mapGet reg.fileIndex f).getD []).countP
        (fun p => p.peerId = pd.peerId.getD "")) := by
  refine ⟨?_, ?_, ?_⟩
  · intro f
    rw [registerPeer_fileIndex_get _ pd now f h, registerPeer_fileIndex_get _ pd now f h]
    by_cases hmem : f ∈ pd.files.getD []
    · rw [if_pos hmem, if_pos hmem]
      exact addRemove_idem _ _ _ _
    · rw [if_neg hmem, if_neg hmem]
  · intro f
    rw [registerPeer_snd_peers _ pd now none h, registerPeer_snd_peers _ pd now none h]
    by_cases hf : f = pd.peerId.getD ""
    · subst hf
      rw [mapGet_mapSet_self, mapGet_mapSet_self]
    · have hne : pd.peerId.getD "" ≠ f := fun hh => hf hh.symm
      rw [mapGet_mapSet_ne _ _ _ _ hne, mapGet_mapSet_ne _ _ _ _ hne,
        mapGet_mapSet_ne _ _ _ _ hne, mapGet_mapSet_ne _ _ _ _ hne]
  · intro f
    rw [registerPeer_fileIndex_get _ pd now f h]
    by_cases hmem : f ∈ pd.files.getD []
    · rw [if_pos hmem, if_pos hmem, addResult_removeResult_eq, Option.getD_some,
        List.countP_append, countP_filter_ne]
      simp
    · rw [if_neg hmem, if_neg hmem]

/-- Claim C7 witness: the idempotence theorem instantiated at peer p1
registering a.txt into the empty registry, projected at the filename
a.txt. -/
theorem c7_registry_registerPeer_idempotent_witness :
    requiredPresent pdA = true ∧
    (mapGet (registerPeer (registerPeer emptyRegistry pdA 0 none).2 pdA 0 none).2.fileIndex
        "a.txt" =
      mapGet (registerPeer emptyRegistry pdA 0 none).2.fileIndex "a.txt") ∧
    (mapGet (registerPeer (registerPeer emptyRegistry pdA 0 none).2 pdA 0 none).2.peers
        "p1" =
      mapGet (registerPeer emptyRegistry pdA 0 none).2.peers "p1") ∧
    ((mapGet (registerPeer emptyRegistry pdA 0 none).2.fileIndex "a.txt").getD []).countP
        (fun p => p.peerId = pdA.peerId.getD "") =
      if "a.txt" ∈ pdA.files.getD [] then 1
      else ((mapGet emptyRegistry.fileIndex "a.txt").getD []).countP
        (fun p => p.peerId = pdA.peerId.getD "") :=
  ⟨by decide,
   (c7_registry_registerPeer_idempotent emptyRegistry pdA 0 (by decide)).1 "a.txt",
   (c7_registry_registerPeer_idempotent emptyRegistry pdA 0 (by decide)).2.1 "p1",
   (c7_registry_registerPeer_idempotent emptyRegistry pdA 0 (by decide)).2.2 "a.txt"⟩

/-- Claim C9: when the snapshot write fails during `registerPeer` or
`unregisterPeer`, the caller receives a failure result carrying the
persistence error message, and the in-memory state is exactly the state
a successful save would have produced — the mutation (stored record,
respectively removed record) is retained, not rolled back. -/
theorem c9_persistence_failure_no_rollback (reg : Registry) (pd : PeerData)
    (qid : String) (now : Nat) (msg : String)
    (h1 : requiredPresent pd = true) (h2 : (mapGet reg.peers qid).isSome = true) :
    ((registerPeer reg pd now (some msg)).2 = (registerPeer reg pd now none).2 ∧
     (registerPeer reg pd now (some msg)).1.success = false ∧
     (registerPeer reg pd now (some msg)).1.message = msg ∧
     (mapGet (registerPeer reg pd now (some msg)).2.peers
       (pd.peerId.getD "")).isSome = true) ∧
    ((unregisterPeer reg qid (some msg)).2 = (unregisterPeer reg qid none).2 ∧
     (unregisterPeer reg qid (some msg)).1.success = false ∧
     (unregisterPeer reg qid (some msg)).1.message = msg ∧
     mapGet (unregisterPeer reg qid (some msg)).2.peers qid = none) := by
  obtain ⟨peer, hq⟩ : ∃ peer, mapGet reg.peers qid = some peer := by
    cases hq : mapGet reg.peers qid with
    | none => rw [hq] at h2; cases h2
    | some p => exact ⟨p, rfl⟩
  refine ⟨⟨?_, ?_, ?_, ?_⟩, ?_, ?_, ?_, ?_⟩
  · apply Registry.ext
    · rw [registerPeer_snd_peers _ pd now _ h1, registerPeer_snd_peers _ pd now _ h1]
    · rw [registerPeer_snd_fileIndex _ pd now _ h1,
        registerPeer_snd_fileIndex _ pd now _ h1]
  · simp [registerPeer, h1]
  · simp [registerPeer, h1]
  · rw [registerPeer_snd_peers _ pd now _ h1, mapGet_mapSet_self]
    rfl
  · simp [unregisterPeer, hq]
  · simp [unregisterPeer, hq]
  · simp [unregisterPeer, hq]
  · simp [unregisterPeer, hq, mapGet_mapDelete_self]

/-- Claim C9 witness: the no-rollback theorem instantiated at the
registry holding q1, registering p1 with a failing snapshot write. -/
theorem c9_persistence_failure_no_rollback_witness :
    ((registerPeer regQ pdA 3 (some "disk full")).2 = (registerPeer regQ pdA 3 none).2 ∧
     (registerPeer regQ pdA 3 (some "disk full")).1.success = false ∧
     (registerPeer regQ pdA 3 (some "disk full")).1.message = "disk full" ∧
     (mapGet (registerPeer regQ pdA 3 (some "disk full")).2.peers
       (pdA.peerId.getD "")).isSome = true) ∧
    ((unregisterPeer regQ "q1" (some "disk full")).2 =
       (unregisterPeer regQ "q1" none).2 ∧
     (unregisterPeer regQ "q1" (some "disk full")).1.success = false ∧
     (unregisterPeer regQ "q1" (some "disk full")).1.message = "disk full" ∧
     mapGet (unregisterPeer regQ "q1" (some "disk full")).2.peers "q1" = none) :=
  c9_persistence_failure_no_rollback regQ pdA "q1" 3 "disk full" (by decide) (by decide)

/-! ## Claim theorems for the transfer protocol -/

theorem transferLoop_checksum (hash : List Nat → String) (content : List Nat)
    (chunkSize : Nat) :
    ∀ fuel cur c, c ∈ transferLoop hash content chunkSize fuel cur →
      c.checksum = (if c.is_last = true then hash content else "") := by
  intro fuel
  induction fuel with
  | zero =>
    intro cur c hc
    simp [transferLoop] at hc
  | succ n ih =>
    intro cur c hc
    simp only [transferLoop] at hc
    by_cases hlt : cur < content.length
    · rw [if_pos hlt] at hc
      rcases List.mem_cons.mp hc with h1 | h2
      · subst h1
        rfl
      · exact ih _ _ h2
    · rw [if_neg hlt] at hc
      cases hc

/-- Claim C3 counterexample: for a zero-length file the sender's loop
guard is immediately false, so `transferFile` emits no chunk at all —
not the single zero-byte `isLast` chunk the claim describes. -/
theorem c3_counterexample_zero_length_emits_no_chunk :
    transferFile constHash [] 0 65536 = [] ∧
    (transferFile constHash [] 0 65536).length ≠ 1 := by
  decide

/-- Claim C3 (amended): every chunk `transferFile` emits carries the
whole-file checksum exactly when it is marked `isLast` (and the empty
string otherwise), and a chunk is emitted only for a nonempty file — a
zero-length file produces an empty stream that just ends. -/
theorem c3_checksum_only_on_last_chunk (hash : List Nat → String)
    (content : List Nat) (offset chunkSize : Nat) (c : TransferChunk)
    (hc : c ∈ transferFile hash content offset chunkSize) :
    c.checksum = (if c.is_last = true then hash content else "") ∧
    content ≠ [] := by
  constructor
  · exact transferLoop_checksum hash content chunkSize _ _ c hc
  · intro hnil
    subst hnil
    simp [transferFile, transferLoop] at hc

/-- Claim C3 witness: the single chunk of a one-byte file is marked last
and carries the file checksum. -/
theorem c3_checksum_only_on_last_chunk_witness :
    (⟨[7], 0, true, "h"⟩ : TransferChunk) ∈ transferFile constHash [7] 0 64 ∧
    ((⟨[7], 0, true, "h"⟩ : TransferChunk).checksum =
      (if (⟨[7], 0, true, "h"⟩ : TransferChunk).is_last = true
       then constHash [7] else "") ∧
     [7] ≠ ([] : List Nat)) :=
  ⟨by decide, c3_checksum_only_on_last_chunk constHash [7] 0 64 _ (by decide)⟩

/-- Claim C2: when the `receiveFile` stream completes with an announced
size different from the bytes written, or with an announced nonempty
checksum different from the recomputed hash of the written file, the
call fails with the corresponding `DATA_LOSS` error and no file remains
at the destination path. The announced sizes are rendered as `Nat` per
the interface description of `fileInfo`. -/
theorem c2_receive_mismatch_deletes_file (hash : List Nat → String)
    (msgs : List ReceiveMsg) (fi : RFileInfo)
    (h1 : (processData msgs).fileInfo = some fi)
    (h2 : (processData msgs).receivedBytes ≠ fi.total_size ∨
      ((processData msgs).receivedBytes = fi.total_size ∧ fi.checksum ≠ "" ∧
        hash (processData msgs).fileContent ≠ fi.checksum)) :
    (receiveFileStream hash msgs).2 = false ∧
    (((processData msgs).receivedBytes ≠ fi.total_size ∧
       (receiveFileStream hash msgs).1 = ReceiveResult.dataLoss "File size mismatch") ∨
     ((processData msgs).receivedBytes = fi.total_size ∧
       (receiveFileStream hash msgs).1 = ReceiveResult.dataLoss "Checksum mismatch")) := by
  rcases h2 with hsz | ⟨hsz, hck, hneq⟩
  · have hrun : receiveEnd hash (processData msgs) =
        (ReceiveResult.dataLoss "File size mismatch", false) := by
      simp only [receiveEnd, h1]
      rw [if_pos hsz]
    refine ⟨?_, Or.inl ⟨hsz, ?_⟩⟩ <;> rw [receiveFileStream, hrun]
  · have hsz' : ¬((processData msgs).receivedBytes ≠ fi.total_size) :=
      fun hh => hh hsz
    have hckb : fi.checksum.isEmpty = false := by
      cases hb : fi.checksum.isEmpty
      · rfl
      · exact absurd ((String.isEmpty_iff fi.checksum).mp hb) hck
    have hrun : receiveEnd hash (processData msgs) =
        (ReceiveResult.dataLoss "Checksum mismatch", false) := by
      simp only [receiveEnd, h1]
      rw [if_neg hsz', hckb]
      rw [show (!false) = true from rfl, if_pos rfl, if_pos hneq]
    refine ⟨?_, Or.inr ⟨hsz, ?_⟩⟩ <;> rw [receiveFileStream, hrun]

/-- Claim C2 witness: a stream announcing five bytes but delivering three
fails with the size-mismatch data loss and leaves no file behind. -/
theorem c2_receive_mismatch_deletes_file_witness :
    (receiveFileStream constHash
        [ReceiveMsg.info ⟨"f.txt", 5, ""⟩, ReceiveMsg.chunk [1, 2, 3]]).2 = false ∧
    (((processData [ReceiveMsg.info ⟨"f.txt", 5, ""⟩,
          ReceiveMsg.chunk [1, 2, 3]]).receivedBytes ≠ (5 : Nat) ∧
       (receiveFileStream constHash
          [ReceiveMsg.info ⟨"f.txt", 5, ""⟩, ReceiveMsg.chunk [1, 2, 3]]).1 =
         ReceiveResult.dataLoss "File size mismatch") ∨
     ((processData [ReceiveMsg.info ⟨"f.txt", 5, ""⟩,
          ReceiveMsg.chunk [1, 2, 3]]).receivedBytes = (5 : Nat) ∧
       (receiveFileStream constHash
          [ReceiveMsg.info ⟨"f.txt", 5, ""⟩, ReceiveMsg.chunk [1, 2, 3]]).1 =
         ReceiveResult.dataLoss "Checksum mismatch")) :=
  c2_receive_mismatch_deletes_file constHash
    [ReceiveMsg.info ⟨"f.txt", 5, ""⟩, ReceiveMsg.chunk [1, 2, 3]]
    ⟨"f.txt", 5, ""⟩ (by decide) (by decide)

/-! ## Claim theorems for bootstrap, health aggregation, monitoring, download -/

/-- Claim C5: with the constructor state (five maximum retries, base
delay 5000 milliseconds), five consecutive failing `retryConnection`
calls apply delays of exactly 5000, 10000, 20000, 40000 and 80000
milliseconds before re-invoking `connectToNetwork`, and the sixth call
returns the terminal max-retries failure without invoking
`connectToNetwork` again, whatever the network would have answered. -/
theorem c5_exponential_backoff_then_terminal :
    (retryRun initialBootstrapState 6).1 =
      [RetryOutcome.attempted 5000 false, RetryOutcome.attempted 10000 false,
       RetryOutcome.attempted 20000 false, RetryOutcome.attempted 40000 false,
       RetryOutcome.attempted 80000 false, RetryOutcome.terminal] ∧
    (∀ ok : Bool, retryConnection (retryRun initialBootstrapState 5).2 ok =
      ((retryRun initialBootstrapState 5).2, RetryOutcome.terminal)) := by
  exact ⟨by decide, by decide⟩

/-- Claim C6 counterexample: with the backup neighbor not configured and
every other check passing, the code classifies the tick as degraded —
the not-configured result is counted as a failed check instead of being
excluded from the tally as the claim states. -/
theorem c6_counterexample_not_configured_counts_as_failure :
    checkFriendBackup false true = CheckStatus.notConfigured ∧
    performHealthCheck CheckStatus.healthy CheckStatus.online
      (checkFriendBackup false true) CheckStatus.healthy = "degraded" := by
  decide

/-- Claim C6 (amended): the tick is classified healthy exactly when all
four checks report healthy or online, unhealthy exactly when none does,
and degraded otherwise; a not-configured check counts as a failed check
in this tally rather than being excluded from it. -/
theorem c6_classification_with_not_configured_as_failure
    (a b c d : CheckStatus) :
    performHealthCheck a b c d =
      (if [a, b, c, d].all (fun s => !statusFails s) then "healthy"
       else if [a, b, c, d].all statusFails then "unhealthy"
       else "degraded") ∧
    statusFails CheckStatus.notConfigured = true := by
  have hall : ∀ a' b' c' d' : CheckStatus,
      performHealthCheck a' b' c' d' =
        (if [a', b', c', d'].all (fun s => !statusFails s) then "healthy"
         else if [a', b', c', d'].all statusFails then "unhealthy"
         else "degraded") := by decide
  exact ⟨hall a b c d, rfl⟩

theorem runMonitor_failures (obs : List ConnectivityState) :
    ∀ s f, (runMonitor ⟨s, f⟩ obs).failures = tfSinceLastReady s f obs := by
  induction obs with
  | nil =>
    intro s f
    rfl
  | cons o rest ih =>
    intro s f
    show (List.foldl checkState (checkState ⟨s, f⟩ o) rest).failures =
      tfSinceLastReady s f (o :: rest)
    by_cases hso : s = o
    · have hcs : checkState ⟨s, f⟩ o = ⟨s, f⟩ := by
        simp [checkState, hso]
      rw [hcs]
      have hne : ¬(s ≠ o) := fun hh => hh hso
      show (runMonitor ⟨s, f⟩ rest).failures = _
      rw [ih s f]
      simp only [tfSinceLastReady]
      rw [if_neg hne]
    · have hcs : checkState ⟨s, f⟩ o =
          ⟨o, if o = ConnectivityState.ready then 0
              else if o = ConnectivityState.transientFailure then f + 1 else f⟩ := by
        simp [checkState, hso]
      rw [hcs]
      simp only [tfSinceLastReady]
      rw [if_pos hso]
      by_cases hor : o = ConnectivityState.ready
      · rw [if_pos hor, if_pos hor]
        exact ih o 0
      · rw [if_neg hor, if_neg hor]
        by_cases hot : o = ConnectivityState.transientFailure
        · rw [if_pos hot, if_pos hot]
          exact ih o (f + 1)
        · rw [if_neg hot, if_neg hot]
          exact ih o f

/-- Claim C8: on an observed state change the failure counter is reset
to zero by a transition into the ready state and incremented by one by a
transition into the transient-failure state (other transitions leave it
unchanged), and over any observation trace starting from a fresh
channel, a proactive reconnection is requested exactly when more than
three transitions into transient failure have been observed since the
latest transition into ready — in particular never at three or fewer. -/
theorem c8_failure_counter_and_reconnect_threshold (si : ConnStateInfo)
    (obs : ConnectivityState) (h : si.state ≠ obs) :
    (checkState si obs).failures =
      (if obs = ConnectivityState.ready then 0
       else if obs = ConnectivityState.transientFailure then si.failures + 1
       else si.failures) ∧
    (∀ s0 trace, requestsReconnect (runMonitor ⟨s0, 0⟩ trace) =
      decide (3 < tfSinceLastReady s0 0 trace)) := by
  constructor
  · simp [checkState, h]
  · intro s0 trace
    rw [requestsReconnect, runMonitor_failures trace s0 0]

/-- Claim C8 witness: a fresh connecting channel observed in transient
failure increments its counter to one, and a short trace with a single
failure transition requests no reconnection. -/
theorem c8_failure_counter_and_reconnect_threshold_witness :
    ((checkState ⟨ConnectivityState.connecting, 0⟩
        ConnectivityState.transientFailure).failures =
      (if ConnectivityState.transientFailure = ConnectivityState.ready then 0
       else if ConnectivityState.transientFailure = ConnectivityState.transientFailure
       then (⟨ConnectivityState.connecting, 0⟩ : ConnStateInfo).failures + 1
       else (⟨ConnectivityState.connecting, 0⟩ : ConnStateInfo).failures)) ∧
    requestsReconnect (runMonitor ⟨ConnectivityState.idle, 0⟩
        [ConnectivityState.transientFailure, ConnectivityState.ready]) =
      decide (3 < tfSinceLastReady ConnectivityState.idle 0
        [ConnectivityState.transientFailure, ConnectivityState.ready]) :=
  ⟨(c8_failure_counter_and_reconnect_threshold ⟨ConnectivityState.connecting, 0⟩
      ConnectivityState.transientFailure (by decide)).1,
   (c8_failure_counter_and_reconnect_threshold ⟨ConnectivityState.connecting, 0⟩
      ConnectivityState.transientFailure (by decide)).2
     ConnectivityState.idle
     [ConnectivityState.transientFailure, ConnectivityState.ready]⟩

/-- Claim C10: for every filename that is empty or contains a dot-dot
sequence, a forward slash or a backslash, `downloadFile` returns a
failure result before touching the filesystem, so no path outside the
shared directory is ever accessed through the download interface. -/
theorem c10_download_validation_blocks_traversal
    (fsys : List (String × FSEntry)) (sharedDirectory filename : String)
    (h : filename = "" ∨ containsSub filename ".." = true ∨
      filename.contains '/' = true ∨ filename.contains '\\' = true) :
    (downloadFile fsys sharedDirectory filename).1.success = false ∧
    (downloadFile fsys sharedDirectory filename).2 = [] := by
  by_cases h0 : (filename.isEmpty || filename.trim.isEmpty) = true
  · constructor <;> simp [downloadFile, h0]
  · have htrav : hasPathTraversal filename = true := by
      rcases h with h1 | h1 | h1 | h1
      · exfalso
        apply h0
        rw [h1]
        rfl
      · simp [hasPathTraversal, h1]
      · simp [hasPathTraversal, h1]
      · simp [hasPathTraversal, h1]
    have h0' : (filename.isEmpty || filename.trim.isEmpty) = false := by
      cases hb : (filename.isEmpty || filename.trim.isEmpty)
      · rfl
      · exact absurd hb h0
    constructor <;> simp [downloadFile, h0', htrav]

/-- Claim C10 witness: a traversal filename is rejected without any
filesystem access even when a matching file exists outside the shared
directory. -/
theorem c10_download_validation_blocks_traversal_witness :
    (downloadFile [("shared/ok.txt", FSEntry.file [1])] "shared" "../ok.txt").1.success
      = false ∧
    (downloadFile [("shared/ok.txt", FSEntry.file [1])] "shared" "../ok.txt").2 = [] :=
  c10_download_validation_blocks_traversal _ _ _ (by decide)

end P2P
